import Mathlib

/-!
Shallow embedding of `crud-controller` (src/crud_controller.ts, src/crud_error.ts):
a declarative CRUD layer over a query builder, with zod-style payload validation.
JavaScript runtime values are modelled by `Crud.Val`; records are association
lists; asynchronous values are `Val.vPromise`; fallible code runs in `Except`.
-/

namespace Crud

/-- JavaScript runtime values as used by the controller: strings, numbers,
booleans, `null`, `undefined`, plain objects, unresolved promises, and the
`sql.literal("DEFAULT")` marker. -/
inductive Val where
  | vStr (s : String)
  | vNum (n : Int)
  | vBool (b : Bool)
  | vNull
  | vUndef
  | vDefault
  | vObj (fields : List (String × Val))
  | vArr (elems : List Val)
  | vPromise (v : Val)
  deriving Repr

/-- A record (plain JS object): an association list from keys to values. -/
abbrev Rec := List (String × Val)

/-- Property read `r[k]`: the first binding of `k`, or `undefined`. -/
def getField (r : Rec) (k : String) : Val :=
  match r with
  | [] => Val.vUndef
  | p :: r => if p.1 = k then p.2 else getField r k

/-- Property write `r[k] = v`: overwrite the existing binding in place,
otherwise append a new one (JS object insertion order). -/
def setKey (r : Rec) (k : String) (v : Val) : Rec :=
  match r with
  | [] => [(k, v)]
  | p :: r => if p.1 = k then (k, v) :: r else p :: setKey r k v

/-- `k in r`: whether the object has the key. -/
def hasKey (r : Rec) (k : String) : Bool :=
  match r with
  | [] => false
  | p :: r => p.1 = k || hasKey r k

/-- Errors that can escape the controller layer: `CrudError` instances
(src/crud_error.ts: message, type, statusCode), zod validation errors
(issues name the offending fields), and JS `TypeError`s. -/
inductive Err where
  | crud (message : String) (etype : String) (statusCode : Nat)
  | zod (issues : List String)
  | typeError (msg : String)
  deriving Repr, DecidableEq

/-- `CrudError.notFound()`. -/
def notFoundErr : Err := Err.crud "not found" "not_found" 404

/-- `CrudError.isCrudError`: only `CrudError` instances carry the
`isCrudError` marker; zod errors and TypeErrors do not. -/
def isCrudError : Err → Bool
  | Err.crud _ _ _ => true
  | _ => false

def exceptIsOk {α : Type} : Except Err α → Bool
  | Except.ok _ => true
  | Except.error _ => false

/-- A zod field schema: parses a value or rejects it (`none`). -/
abbrev ZField := Val → Option Val

/-- A zod object shape: named field schemas in declaration order. -/
abbrev ZShape := List (String × ZField)

/-- `z.string()`. -/
def zString : ZField
  | Val.vStr s => some (Val.vStr s)
  | _ => none

/-- `z.boolean()`. -/
def zBoolean : ZField
  | Val.vBool b => some (Val.vBool b)
  | _ => none

/-- `z.number()`. -/
def zNumber : ZField
  | Val.vNum n => some (Val.vNum n)
  | _ => none

/-- `.nullable()`. -/
def zNullable (f : ZField) : ZField := fun v =>
  match v with
  | Val.vNull => some Val.vNull
  | v => f v

/-- `schema.pick(mask)`: keep only the shape fields named in the mask. -/
def zPick (shape : ZShape) (mask : List String) : ZShape :=
  shape.filter (fun p => mask.contains p.1)

/-- `schema.parse(v)` for a zod object schema in default (strip) mode:
the input must be a plain object (a `Promise` is its own parsed type and is
rejected); every shape field is parsed from the input (absent keys read as
`undefined`); unknown keys are stripped; on failure the issues name the
failing fields. -/
def zParse (shape : ZShape) (v : Val) : Except Err Rec :=
  match v with
  | Val.vObj fields =>
      let results := shape.map (fun p => (p.1, p.2 (getField fields p.1)))
      if results.all (fun q => q.2.isSome) then
        Except.ok (results.map (fun q => (q.1, q.2.getD Val.vUndef)))
      else
        Except.error (Err.zod (results.filterMap
          (fun q => if q.2.isSome then none else some q.1)))
  | Val.vPromise _ => Except.error (Err.zod ["Expected object, received promise"])
  | _ => Except.error (Err.zod ["Expected object"])

/-- The registered model schemas (`CrudDefinition`). -/
abbrev Models := List (String × ZShape)

def getShape (models : Models) (model : String) : ZShape :=
  match models.find? (fun p => p.1 == model) with
  | some p => p.2
  | none => []

/-- The request context as seen through the `ContextAdapter`: the
request-scoped key/value store (`get`/`set`), the decoded route parameters
(`getRequestParams`), and the value `getRequestBody` returns (which may be
an unresolved promise). -/
structure Ctx where
  store : Rec
  params : Rec
  body : Val

/-- `adapter.get(c, key)`. -/
def ctxGet (c : Ctx) (k : String) : Val := getField c.store k

/-- Environment for the generators: `crypto.randomUUID()` and
`new Date().toISOString()`, supplied as streams indexed by a call counter. -/
structure Env where
  uuid : Nat → String
  now : Nat → String

/-- An attribute source tag (the `AttributesPicker` values). -/
inductive Source where
  | null
  | sqlDefault
  | uuid
  | get
  | arg
  | payload
  | param
  | inserted_at
  | updated_at
  | fn (f : Ctx → Val)

/-- An attribute specification: per-field source, in declaration order. -/
abbrev Picker := List (String × Source)

/-- The keys collected into `schemaKeys`: exactly the `payload`-sourced
fields of the picker (crud_controller.ts lines 138-147). -/
def schemaKeys (picker : Picker) : List String :=
  picker.filterMap (fun p =>
    match p.2 with
    | Source.payload => some p.1
    | _ => none)

/-- Assignment of a custom resolver result (crud_controller.ts lines
182-189): `typeof fnValue === "object" && "then" in fnValue` awaits the
value; `"then" in null` throws a TypeError; awaiting a plain object (whose
`then` is not callable) yields the object itself. -/
def resolveFnValue (v : Val) : Except Err Val :=
  match v with
  | Val.vNull => Except.error (Err.typeError "Cannot use the in operator to search for then in null")
  | Val.vPromise w => Except.ok w
  | v => Except.ok v

/-- Boolean-to-text coercion (lines 193-195). -/
def coerceBool (v : Val) : Val :=
  match v with
  | Val.vBool b => if b then Val.vStr "1" else Val.vStr "0"
  | v => v

/-- Apply the boolean coercion at one key, exactly when the current value
is a native boolean. -/
def coerceKey (r : Rec) (k : String) : Rec :=
  match getField r k with
  | Val.vBool b => setKey r k (if b then Val.vStr "1" else Val.vStr "0")
  | _ => r

/-- Resolution of one picker entry (the `switch` of lines 153-192), over the
state (attributes record, generator-call counter). `payload` entries have no
case: their value stays whatever the parse produced. -/
def resolveKey (env : Env) (c : Ctx) (args : Option Rec)
    (st : Rec × Nat) (key : String) (src : Source) : Except Err (Rec × Nat) :=
  match src with
  | Source.get => Except.ok (setKey st.1 key (ctxGet c key), st.2)
  | Source.arg =>
      match args with
      | none => Except.error (Err.typeError "Cannot read properties of undefined")
      | some a => Except.ok (setKey st.1 key (getField a key), st.2)
  | Source.param => Except.ok (setKey st.1 key (getField c.params key), st.2)
  | Source.uuid => Except.ok (setKey st.1 key (Val.vStr (env.uuid st.2)), st.2 + 1)
  | Source.inserted_at => Except.ok (setKey st.1 key (Val.vStr (env.now st.2)), st.2 + 1)
  | Source.updated_at => Except.ok (setKey st.1 key (Val.vStr (env.now st.2)), st.2 + 1)
  | Source.null => Except.ok (setKey st.1 key Val.vNull, st.2)
  | Source.sqlDefault => Except.ok (setKey st.1 key Val.vDefault, st.2)
  | Source.payload => Except.ok (st.1, st.2)
  | Source.fn f => do
      let v ← resolveFnValue (f c)
      Except.ok (setKey st.1 key v, st.2)

/-- One loop iteration: resolve the key by source, then coerce a boolean
result at that key (lines 153-196). -/
def resolveStep (env : Env) (c : Ctx) (args : Option Rec)
    (st : Rec × Nat) (entry : String × Source) : Except Err (Rec × Nat) := do
  let st2 ← resolveKey env c args st entry.1 entry.2
  Except.ok (coerceKey st2.1 entry.1, st2.2)

/-- The function returned by `createAttributesPickerFunction`: build the
restricted schema from the `payload`-sourced keys, parse the raw payload
against it, then resolve every picker entry in declaration order. -/
def attributesPicker (models : Models) (model : String) (picker : Picker)
    (env : Env) (c : Ctx) (payload : Val) (args : Option Rec) : Except Err Rec := do
  let shape := zPick (getShape models model) (schemaKeys picker)
  let attrs ← zParse shape payload
  let st ← picker.foldlM (resolveStep env c args) (attrs, 0)
  Except.ok st.1

/-- An equality/comparison filter added to a query by `.where(lhs, op, rhs)`. -/
structure Filter where
  field : String
  op : String
  value : Val
  deriving Repr

/-- A select/update/delete query: the target table and the filters applied,
in application order. -/
structure Query where
  table : String
  filters : List Filter
  deriving Repr

def addFilter (q : Query) (f : Filter) : Query :=
  { q with filters := q.filters ++ [f] }

/-- A `where` option: a static list of `(field, op, value)` triples, or a
function computing one from the request context. -/
inductive WhereOpts where
  | list (l : List (String × String × Val))
  | fn (f : Ctx → List (String × String × Val))

/-- `CrudControllerLoadOptions`: `scopes`, `where`, `query`, `as`. -/
structure LoadOptions where
  scopes : Option (List String) := none
  whereOpt : Option WhereOpts := none
  queryHook : Option (Ctx → Query → Query) := none
  as : Option String := none

/-- `getScopes` (lines 240-251): all route parameters, restricted to the
`scopes` subset when one is declared. -/
def getScopes (c : Ctx) (loadOptions : LoadOptions) : Rec :=
  let scopes := c.params
  match loadOptions.scopes with
  | some names => scopes.filter (fun p => names.contains p.1)
  | none => scopes

/-- `applyWhere` (lines 253-265): a function-valued `where` is invoked with
the context first; then each triple is applied as a filter in list order. -/
def applyWhere (c : Ctx) (w : WhereOpts) (query : Query) : Query :=
  let l := match w with
    | WhereOpts.list l => l
    | WhereOpts.fn f => f c
  l.foldl (fun q t => addFilter q ⟨t.1, t.2.1, t.2.2⟩) query

/-- `singularize` (lines 217-226): `if (loadOptions.as)` uses JS truthiness,
so an empty-string `as` falls through to stripping the trailing character. -/
def singularize (model : String) (loadOptions : LoadOptions) : String :=
  match loadOptions.as with
  | some a => if a.isEmpty then model.dropRight 1 else a
  | none => model.dropRight 1

/-- The external query engine (Kysely), abstracted as execution oracles:
select-all, select-take-first, insert-returning-row (with an on-conflict
clause configured or not), update-returning-row, delete-returning-count. -/
structure DB where
  selectAll : Query → List Rec
  takeFirst : Query → Option Rec
  insert : String → Rec → Bool → Option Rec
  updateRet : Query → Rec → Option Rec
  deleteCount : Query → Nat

/-- The query built by `index` (lines 279-293): select-all, then route
scope filters, then `where` filters, then the `query` hook last. -/
def indexQuery (model : String) (opts : LoadOptions) (c : Ctx) : Query :=
  let query : Query := { table := model, filters := [] }
  let query := (getScopes c opts).foldl
    (fun q p => addFilter q ⟨p.1, "=", p.2⟩) query
  let query := match opts.whereOpt with
    | some w => applyWhere c w query
    | none => query
  match opts.queryHook with
  | some h => h c query
  | none => query

/-- A `{ data, metadata }` collection result. -/
structure Collection where
  data : List Rec
  metadata : Val

/-- `index` (lines 275-304): execute the composed query, wrap with the
placeholder metadata. -/
def index (db : DB) (model : String) (opts : LoadOptions) (c : Ctx) : Collection :=
  { data := db.selectAll (indexQuery model opts c),
    metadata := Val.vObj [("total_count", Val.vNum 0)] }

/-- The query built by `load` (lines 366-374): scopes then `where`; `load`
has no `query` hook. -/
def loadQuery (model : String) (opts : LoadOptions) (c : Ctx) : Query :=
  let query : Query := { table := model, filters := [] }
  let query := (getScopes c opts).foldl
    (fun q p => addFilter q ⟨p.1, "=", p.2⟩) query
  match opts.whereOpt with
  | some w => applyWhere c w query
  | none => query

/-- `load` (lines 359-383): take the first matching row, else `notFound`. -/
def load (db : DB) (model : String) (opts : LoadOptions) (c : Ctx) : Except Err Rec :=
  match db.takeFirst (loadQuery model opts c) with
  | none => Except.error notFoundErr
  | some data => Except.ok data

/-- `CrudControllerCreateOptions`: the attribute specification and whether
an `onConflict` builder was supplied (its content lives in the store). -/
structure CreateOptions where
  attributes : Picker
  hasOnConflict : Bool := false

/-- `create` (lines 314-357): resolve attributes from the unawaited request
body, insert returning the row; an absent returned row is passed through
(no not-found detection on create). -/
def create (models : Models) (db : DB) (env : Env) (model : String)
    (co : CreateOptions) (c : Ctx) (args : Option Rec) : Except Err (Option Rec) := do
  let attributes ← attributesPicker models model co.attributes env c c.body args
  Except.ok (db.insert model attributes co.hasOnConflict)

/-- `CrudControllerUpdateOptions`: `where` and the attribute specification. -/
structure UpdateOptions where
  whereOpt : Option WhereOpts := none
  attributes : Picker

/-- The query built by `update` (lines 443-451): `getScopes(c)` is called
with no load options, so every route parameter is applied; then `where`. -/
def updateQuery (model : String) (uo : UpdateOptions) (c : Ctx) : Query :=
  let query : Query := { table := model, filters := [] }
  let query := (getScopes c {}).foldl
    (fun q p => addFilter q ⟨p.1, "=", p.2⟩) query
  match uo.whereOpt with
  | some w => applyWhere c w query
  | none => query

/-- `update` (lines 426-468): build the scoped query, resolve attributes
from the unawaited request body, update returning the row; no row means
`notFound`. -/
def update (models : Models) (db : DB) (env : Env) (model : String)
    (uo : UpdateOptions) (c : Ctx) (args : Option Rec) : Except Err Rec := do
  let updatedAttributes ← attributesPicker models model uo.attributes env c c.body args
  match db.updateRet (updateQuery model uo c) updatedAttributes with
  | none => Except.error notFoundErr
  | some data => Except.ok data

/-- `show` (lines 404-416): return the contextually cached record under the
singular key when it is not `undefined`, else perform a scoped load. -/
def «show» (db : DB) (model : String) (opts : LoadOptions) (c : Ctx) : Except Err Val :=
  let data := ctxGet c (singularize model opts)
  match data with
  | Val.vUndef => (load db model opts c).map Val.vObj
  | data => Except.ok data

/-- `loader` (lines 385-394): load and cache under the singular key. -/
def loader (db : DB) (model : String) (opts : LoadOptions) (c : Ctx) : Except Err Ctx :=
  (load db model opts c).map (fun data =>
    { c with store := setKey c.store (singularize model opts) (Val.vObj data) })

/-- `CrudControllerDestroyOptions`: `where` and `as`. -/
structure DestroyOptions where
  whereOpt : Option WhereOpts := none
  as : Option String := none

/-- Destroy options are passed where load options are expected (lines
485-487): structurally, with no `scopes` and no `query` hook. -/
def destroyLoadOptions (dopts : DestroyOptions) : LoadOptions :=
  { whereOpt := dopts.whereOpt, as := dopts.as }

/-- The query built by `destroy` (lines 490-498): `getScopes(c)` with no
load options, then `where`. -/
def destroyQuery (model : String) (dopts : DestroyOptions) (c : Ctx) : Query :=
  let query : Query := { table := model, filters := [] }
  let query := (getScopes c {}).foldl
    (fun q p => addFilter q ⟨p.1, "=", p.2⟩) query
  match dopts.whereOpt with
  | some w => applyWhere c w query
  | none => query

/-- `destroy` (lines 477-512): reuse the cached record under the singular
key or load one (for the found signal), then delete; zero deleted rows
means `notFound`; returns an empty body. -/
def destroy (db : DB) (model : String) (dopts : DestroyOptions) (c : Ctx) :
    Except Err Rec := do
  let record := ctxGet c (singularize model (destroyLoadOptions dopts))
  let _found ← (match record with
    | Val.vUndef => (load db model (destroyLoadOptions dopts) c).map Val.vObj
    | record => Except.ok record)
  if db.deleteCount (destroyQuery model dopts c) = 0 then
    Except.error notFoundErr
  else
    Except.ok []

/-- `pick` (lines 202-207): build a record holding exactly the named
properties, reading absent ones as `undefined`. -/
def pick (obj : Rec) (props : List String) : Rec :=
  props.foldl (fun result prop => setKey result prop (getField obj prop)) []

/-- `omit` (lines 209-215): copy the record and delete the named
properties. -/
def «omit» (obj : Rec) (props : List String) : Rec :=
  props.foldl (fun result prop => result.filter (fun p => p.1 != prop)) obj

/-- `ResponseOptions`: `omit`, `pick`, `render` (awaited; modelled as a
total function), `statusCode`. -/
structure ResponseOptions where
  «omit» : Option (List String) := none
  pick : Option (List String) := none
  render : Option (Rec → Rec) := none
  statusCode : Option Nat := none

/-- What is handed to `adapter.response`: the body and the status code. -/
structure Response where
  body : Val
  statusCode : Nat
  deriving Repr

/-- `collectionResponse` (lines 514-541): shape every row of the collection
(omit, then pick, then render, inline per row), wrap as `{ data, metadata }`,
status code defaulting to 200. -/
def collectionResponse (dataFn : Ctx → Except Err Collection)
    (options : ResponseOptions) (c : Ctx) : Except Err Response := do
  let coll ← dataFn c
  let data := coll.data.map (fun row =>
    let result := row
    let result := match options.«omit» with
      | some props => «omit» result props
      | none => result
    let result := match options.pick with
      | some props => pick result props
      | none => result
    match options.render with
    | some r => r result
    | none => result)
  Except.ok
    { body := Val.vObj [("data", Val.vArr (data.map Val.vObj)),
        ("metadata", coll.metadata)],
      statusCode := options.statusCode.getD 200 }

/-! Association-list lemmas -/

theorem getField_setKey_self (r : Rec) (k : String) (v : Val) :
    getField (setKey r k v) k = v := by
  induction r with
  | nil => simp [setKey, getField]
  | cons p r ih =>
      by_cases h : p.1 = k
      · simp [setKey, h, getField]
      · simp [setKey, h, getField, ih]

theorem getField_setKey_ne (r : Rec) (k k2 : String) (v : Val) (h : k2 ≠ k) :
    getField (setKey r k v) k2 = getField r k2 := by
  induction r with
  | nil => simp [setKey, getField, Ne.symm h]
  | cons p r ih =>
      by_cases hp : p.1 = k
      · have hp2 : p.1 ≠ k2 := by
          rw [hp]; exact Ne.symm h
        simp [setKey, hp, getField, hp2, Ne.symm h]
      · by_cases hq : p.1 = k2
        · simp [setKey, hp, getField, hq, h]
        · simp [setKey, hp, getField, hq, ih]

theorem mem_setKey (r : Rec) (k : String) (v : Val) (p : String × Val)
    (h : p ∈ setKey r k v) : p.1 = k ∨ p ∈ r := by
  induction r with
  | nil =>
      simp [setKey] at h
      left
      rw [h]
  | cons q r ih =>
      by_cases hq : q.1 = k
      · simp [setKey, hq] at h
        rcases h with h | h
        · left; rw [h]
        · right; exact List.mem_cons_of_mem q h
      · simp [setKey, hq] at h
        rcases h with h | h
        · right; rw [h]; exact List.mem_cons_self q r
        · rcases ih h with hh | hh
          · left; exact hh
          · right; exact List.mem_cons_of_mem q hh

theorem getField_eq_vUndef (r : Rec) (k : String) (h : ∀ p ∈ r, p.1 ≠ k) :
    getField r k = Val.vUndef := by
  induction r with
  | nil => rfl
  | cons p r ih =>
      have hp := h p (List.mem_cons_self p r)
      simp [getField, hp]
      exact ih (fun q hq => h q (List.mem_cons_of_mem p hq))

theorem coerceBool_ne_vBool (v : Val) (b : Bool) : coerceBool v ≠ Val.vBool b := by
  cases v with
  | vBool b2 => cases b2 <;> simp [coerceBool]
  | vStr s => simp [coerceBool]
  | vNum n => simp [coerceBool]
  | vNull => simp [coerceBool]
  | vUndef => simp [coerceBool]
  | vDefault => simp [coerceBool]
  | vObj fields => simp [coerceBool]
  | vArr elems => simp [coerceBool]
  | vPromise w => simp [coerceBool]

theorem getField_coerceKey_self (r : Rec) (k : String) :
    getField (coerceKey r k) k = coerceBool (getField r k) := by
  unfold coerceKey
  cases h : getField r k with
  | vBool b => simp [getField_setKey_self, coerceBool]
  | vStr s => simp [coerceBool, h]
  | vNum n => simp [coerceBool, h]
  | vNull => simp [coerceBool, h]
  | vUndef => simp [coerceBool, h]
  | vDefault => simp [coerceBool, h]
  | vObj fields => simp [coerceBool, h]
  | vArr elems => simp [coerceBool, h]
  | vPromise w => simp [coerceBool, h]

theorem getField_coerceKey_ne (r : Rec) (k k2 : String) (h : k2 ≠ k) :
    getField (coerceKey r k) k2 = getField r k2 := by
  unfold coerceKey
  cases hg : getField r k with
  | vBool b => exact getField_setKey_ne r k k2 _ h
  | vStr s => rfl
  | vNum n => rfl
  | vNull => rfl
  | vUndef => rfl
  | vDefault => rfl
  | vObj fields => rfl
  | vArr elems => rfl
  | vPromise w => rfl

theorem mem_coerceKey (r : Rec) (k : String) (p : String × Val)
    (h : p ∈ coerceKey r k) : p.1 = k ∨ p ∈ r := by
  unfold coerceKey at h
  cases hg : getField r k with
  | vBool b => rw [hg] at h; exact mem_setKey r k _ p h
  | vStr s => rw [hg] at h; right; exact h
  | vNum n => rw [hg] at h; right; exact h
  | vNull => rw [hg] at h; right; exact h
  | vUndef => rw [hg] at h; right; exact h
  | vDefault => rw [hg] at h; right; exact h
  | vObj fields => rw [hg] at h; right; exact h
  | vArr elems => rw [hg] at h; right; exact h
  | vPromise w => rw [hg] at h; right; exact h

/-! Except dissection lemmas -/

theorem except_bind_ok {α β : Type} (x : Except Err α) (g : α → Except Err β) (r : β)
    (h : (x >>= g) = Except.ok r) : ∃ a, x = Except.ok a ∧ g a = Except.ok r := by
  cases x with
  | error e => simp [Bind.bind, Except.bind] at h
  | ok a => exact ⟨a, rfl, by simpa [Bind.bind, Except.bind] using h⟩

theorem except_bind_error {α β : Type} (x : Except Err α) (g : α → Except Err β) (e : Err)
    (h : (x >>= g) = Except.error e) :
    x = Except.error e ∨ ∃ a, x = Except.ok a ∧ g a = Except.error e := by
  cases x with
  | error e2 =>
      left
      simp [Bind.bind, Except.bind] at h
      rw [h]
  | ok a =>
      right
      exact ⟨a, rfl, by simpa [Bind.bind, Except.bind] using h⟩

theorem except_error_bind {α β : Type} (x : Except Err α) (g : α → Except Err β) (e : Err)
    (h : x = Except.error e) : (x >>= g) = Except.error e := by
  rw [h]
  rfl

theorem except_ok_inj {α : Type} {a b : α}
    (h : (Except.ok a : Except Err α) = Except.ok b) : a = b := by
  injection h

theorem except_error_inj {α : Type} {a b : Err}
    (h : (Except.error a : Except Err α) = Except.error b) : a = b := by
  injection h

/-! Step-level lemmas about attribute resolution -/

theorem resolveStep_ok (env : Env) (c : Ctx) (args : Option Rec)
    (st : Rec × Nat) (e : String × Source) (st2 : Rec × Nat)
    (h : resolveStep env c args st e = Except.ok st2) :
    ∃ mid, resolveKey env c args st e.1 e.2 = Except.ok mid ∧
      st2 = (coerceKey mid.1 e.1, mid.2) := by
  unfold resolveStep at h
  obtain ⟨mid, h1, h2⟩ := except_bind_ok _ _ _ h
  refine ⟨mid, h1, ?_⟩
  simpa using h2.symm

theorem resolveKey_ok_shape (env : Env) (c : Ctx) (args : Option Rec)
    (st : Rec × Nat) (key : String) (src : Source) (mid : Rec × Nat)
    (h : resolveKey env c args st key src = Except.ok mid) :
    mid.1 = st.1 ∨ ∃ w, mid.1 = setKey st.1 key w := by
  cases src with
  | null =>
      simp only [resolveKey] at h
      right
      exact ⟨Val.vNull, by rw [← except_ok_inj h]⟩
  | sqlDefault =>
      simp only [resolveKey] at h
      right
      exact ⟨Val.vDefault, by rw [← except_ok_inj h]⟩
  | uuid =>
      simp only [resolveKey] at h
      right
      exact ⟨Val.vStr (env.uuid st.2), by rw [← except_ok_inj h]⟩
  | get =>
      simp only [resolveKey] at h
      right
      exact ⟨ctxGet c key, by rw [← except_ok_inj h]⟩
  | arg =>
      cases args with
      | none => simp [resolveKey] at h
      | some a =>
          simp only [resolveKey] at h
          right
          exact ⟨getField a key, by rw [← except_ok_inj h]⟩
  | payload =>
      simp only [resolveKey] at h
      left
      rw [← except_ok_inj h]
  | param =>
      simp only [resolveKey] at h
      right
      exact ⟨getField c.params key, by rw [← except_ok_inj h]⟩
  | inserted_at =>
      simp only [resolveKey] at h
      right
      exact ⟨Val.vStr (env.now st.2), by rw [← except_ok_inj h]⟩
  | updated_at =>
      simp only [resolveKey] at h
      right
      exact ⟨Val.vStr (env.now st.2), by rw [← except_ok_inj h]⟩
  | fn f =>
      cases hf : resolveFnValue (f c) with
      | error er =>
          exfalso
          simp only [resolveKey] at h
          rw [except_error_bind _ _ _ hf] at h
          exact Except.noConfusion h
      | ok w =>
          simp only [resolveKey] at h
          rw [hf] at h
          simp only [Bind.bind, Except.bind] at h
          right
          exact ⟨w, by rw [← except_ok_inj h]⟩

theorem resolveStep_getField_ne (env : Env) (c : Ctx) (args : Option Rec)
    (st : Rec × Nat) (e : String × Source) (st2 : Rec × Nat) (k : String)
    (h : resolveStep env c args st e = Except.ok st2) (hk : k ≠ e.1) :
    getField st2.1 k = getField st.1 k := by
  obtain ⟨mid, h1, h2⟩ := resolveStep_ok env c args st e st2 h
  rw [h2]
  rw [getField_coerceKey_ne mid.1 e.1 k hk]
  rcases resolveKey_ok_shape env c args st e.1 e.2 mid h1 with hs | ⟨w, hs⟩
  · rw [hs]
  · rw [hs]
    exact getField_setKey_ne st.1 e.1 k w hk

theorem resolveStep_not_vBool_self (env : Env) (c : Ctx) (args : Option Rec)
    (st : Rec × Nat) (e : String × Source) (st2 : Rec × Nat)
    (h : resolveStep env c args st e = Except.ok st2) (b : Bool) :
    getField st2.1 e.1 ≠ Val.vBool b := by
  obtain ⟨mid, _, h2⟩ := resolveStep_ok env c args st e st2 h
  rw [h2]
  rw [getField_coerceKey_self mid.1 e.1]
  exact coerceBool_ne_vBool _ b

theorem resolveStep_mem (env : Env) (c : Ctx) (args : Option Rec)
    (st : Rec × Nat) (e : String × Source) (st2 : Rec × Nat) (p : String × Val)
    (h : resolveStep env c args st e = Except.ok st2) (hp : p ∈ st2.1) :
    p.1 = e.1 ∨ p ∈ st.1 := by
  obtain ⟨mid, h1, h2⟩ := resolveStep_ok env c args st e st2 h
  rw [h2] at hp
  rcases mem_coerceKey mid.1 e.1 p hp with hc | hc
  · left; exact hc
  · rcases resolveKey_ok_shape env c args st e.1 e.2 mid h1 with hs | ⟨w, hs⟩
    · right; rw [hs] at hc; exact hc
    · rw [hs] at hc
      exact mem_setKey st.1 e.1 w p hc

/-! Fold-level lemmas about attribute resolution -/

theorem foldResolve_getField (env : Env) (c : Ctx) (args : Option Rec) :
    ∀ (l : List (String × Source)) (st r : Rec × Nat),
    List.foldlM (resolveStep env c args) st l = Except.ok r →
    ∀ k, k ∉ l.map Prod.fst → getField r.1 k = getField st.1 k := by
  intro l
  induction l with
  | nil =>
      intro st r h k _
      simp [List.foldlM, pure, Except.pure] at h
      rw [← h]
  | cons e l ih =>
      intro st r h k hk
      simp only [List.foldlM] at h
      obtain ⟨mid, hstep, hrest⟩ := except_bind_ok _ _ _ h
      have hk1 : k ≠ e.1 := by
        intro hh
        exact hk (by rw [hh]; exact List.mem_cons_self _ _)
      have hk2 : k ∉ l.map Prod.fst := by
        intro hh
        exact hk (List.mem_cons_of_mem _ hh)
      rw [ih mid r hrest k hk2]
      exact resolveStep_getField_ne env c args st e mid k hstep hk1

theorem foldResolve_not_vBool (env : Env) (c : Ctx) (args : Option Rec) :
    ∀ (l : List (String × Source)) (st r : Rec × Nat),
    List.foldlM (resolveStep env c args) st l = Except.ok r →
    (∀ k, k ∉ l.map Prod.fst → ∀ b, getField st.1 k ≠ Val.vBool b) →
    ∀ k b, getField r.1 k ≠ Val.vBool b := by
  intro l
  induction l with
  | nil =>
      intro st r h hpre k b
      simp [List.foldlM, pure, Except.pure] at h
      rw [← h]
      exact hpre k (by simp) b
  | cons e l ih =>
      intro st r h hpre k b
      simp only [List.foldlM] at h
      obtain ⟨mid, hstep, hrest⟩ := except_bind_ok _ _ _ h
      refine ih mid r hrest ?_ k b
      intro k2 hk2 b2
      by_cases hke : k2 = e.1
      · rw [hke]
        exact resolveStep_not_vBool_self env c args st e mid hstep b2
      · rw [resolveStep_getField_ne env c args st e mid k2 hstep hke]
        refine hpre k2 ?_ b2
        intro hh
        rcases List.mem_cons.mp hh with hh | hh
        · exact hke hh
        · exact hk2 hh

theorem foldResolve_mem (env : Env) (c : Ctx) (args : Option Rec) :
    ∀ (l : List (String × Source)) (st r : Rec × Nat),
    List.foldlM (resolveStep env c args) st l = Except.ok r →
    ∀ p : String × Val, p ∈ r.1 → p.1 ∈ l.map Prod.fst ∨ p ∈ st.1 := by
  intro l
  induction l with
  | nil =>
      intro st r h p hp
      simp [List.foldlM, pure, Except.pure] at h
      right
      rw [h]
      exact hp
  | cons e l ih =>
      intro st r h p hp
      simp only [List.foldlM] at h
      obtain ⟨mid, hstep, hrest⟩ := except_bind_ok _ _ _ h
      rcases ih mid r hrest p hp with hh | hh
      · left; exact List.mem_cons_of_mem _ hh
      · rcases resolveStep_mem env c args st e mid p hstep hh with hm | hm
        · left; rw [hm]; exact List.mem_cons_self _ _
        · right; exact hm

theorem foldResolve_args_none (env : Env) (c : Ctx) :
    ∀ (l : List (String × Source)) (st r : Rec × Nat) (k : String),
    (k, Source.arg) ∈ l →
    List.foldlM (resolveStep env c none) st l ≠ Except.ok r := by
  intro l
  induction l with
  | nil =>
      intro st r k hk
      exact absurd hk (List.not_mem_nil _)
  | cons e l ih =>
      intro st r k hk h
      simp only [List.foldlM] at h
      obtain ⟨mid, hstep, hrest⟩ := except_bind_ok _ _ _ h
      rcases List.mem_cons.mp hk with hh | hh
      · obtain ⟨mid2, h1, _⟩ := resolveStep_ok env c none st e mid hstep
        rw [← hh] at h1
        simp [resolveKey] at h1
      · exact ih mid r k hh hrest

/-! Error-kind lemmas -/

theorem resolveFnValue_error (v : Val) (er : Err)
    (h : resolveFnValue v = Except.error er) :
    er = Err.typeError "Cannot use the in operator to search for then in null" := by
  cases v <;> simp [resolveFnValue] at h
  rw [← h]

theorem resolveKey_error (env : Env) (c : Ctx) (args : Option Rec)
    (st : Rec × Nat) (key : String) (src : Source) (er : Err)
    (h : resolveKey env c args st key src = Except.error er) :
    isCrudError er = false := by
  cases src with
  | null => simp [resolveKey] at h
  | sqlDefault => simp [resolveKey] at h
  | uuid => simp [resolveKey] at h
  | get => simp [resolveKey] at h
  | arg =>
      cases args with
      | none =>
          simp [resolveKey] at h
          rw [← h]
          rfl
      | some a => simp [resolveKey] at h
  | payload => simp [resolveKey] at h
  | param => simp [resolveKey] at h
  | inserted_at => simp [resolveKey] at h
  | updated_at => simp [resolveKey] at h
  | fn f =>
      simp only [resolveKey] at h
      rcases except_bind_error _ _ _ h with hh | ⟨w, _, hh⟩
      · rw [resolveFnValue_error (f c) er hh]
        rfl
      · exact Except.noConfusion hh

theorem resolveStep_error (env : Env) (c : Ctx) (args : Option Rec)
    (st : Rec × Nat) (e : String × Source) (er : Err)
    (h : resolveStep env c args st e = Except.error er) :
    isCrudError er = false := by
  unfold resolveStep at h
  rcases except_bind_error _ _ _ h with hh | ⟨mid, _, hh⟩
  · exact resolveKey_error env c args st e.1 e.2 er hh
  · exact Except.noConfusion hh

theorem foldResolve_error (env : Env) (c : Ctx) (args : Option Rec) :
    ∀ (l : List (String × Source)) (st : Rec × Nat) (er : Err),
    List.foldlM (resolveStep env c args) st l = Except.error er →
    isCrudError er = false := by
  intro l
  induction l with
  | nil =>
      intro st er h
      simp [List.foldlM, pure, Except.pure] at h
  | cons e l ih =>
      intro st er h
      simp only [List.foldlM] at h
      rcases except_bind_error _ _ _ h with hh | ⟨mid, _, hh⟩
      · exact resolveStep_error env c args st e er hh
      · exact ih mid er hh

theorem zParse_error (shape : ZShape) (v : Val) (er : Err)
    (h : zParse shape v = Except.error er) : ∃ issues, er = Err.zod issues := by
  cases v with
  | vObj fields =>
      simp only [zParse] at h
      by_cases hall :
          (shape.map (fun p => (p.1, p.2 (getField fields p.1)))).all
            (fun q => q.2.isSome)
      · rw [if_pos hall] at h
        exact Except.noConfusion h
      · rw [if_neg hall] at h
        exact ⟨_, (except_error_inj h).symm⟩
  | vStr s => exact ⟨_, by simpa [zParse] using h.symm⟩
  | vNum n => exact ⟨_, by simpa [zParse] using h.symm⟩
  | vBool b => exact ⟨_, by simpa [zParse] using h.symm⟩
  | vNull => exact ⟨_, by simpa [zParse] using h.symm⟩
  | vUndef => exact ⟨_, by simpa [zParse] using h.symm⟩
  | vDefault => exact ⟨_, by simpa [zParse] using h.symm⟩
  | vArr elems => exact ⟨_, by simpa [zParse] using h.symm⟩
  | vPromise w => exact ⟨_, by simpa [zParse] using h.symm⟩

/-! Lockstep lemmas: runs that differ only in the parsed payload -/

theorem agree_after_assign (r1 r2 : Rec) (K : List String) (key : String) (w : Val)
    (hag : ∀ k, k ∉ K → getField r1 k = getField r2 k) :
    ∀ k, k ∉ K → getField (coerceKey (setKey r1 key w) key) k
      = getField (coerceKey (setKey r2 key w) key) k := by
  intro k hk
  by_cases hke : k = key
  · rw [hke, getField_coerceKey_self, getField_coerceKey_self,
      getField_setKey_self, getField_setKey_self]
  · rw [getField_coerceKey_ne _ _ _ hke, getField_coerceKey_ne _ _ _ hke,
      getField_setKey_ne _ _ _ _ hke, getField_setKey_ne _ _ _ _ hke]
    exact hag k hk

theorem agree_after_coerce (r1 r2 : Rec) (K : List String) (key : String)
    (hkey : key ∈ K)
    (hag : ∀ k, k ∉ K → getField r1 k = getField r2 k) :
    ∀ k, k ∉ K → getField (coerceKey r1 key) k = getField (coerceKey r2 key) k := by
  intro k hk
  have hke : k ≠ key := fun hh => hk (hh ▸ hkey)
  rw [getField_coerceKey_ne _ _ _ hke, getField_coerceKey_ne _ _ _ hke]
  exact hag k hk

theorem resolveStep_lockstep (env : Env) (c : Ctx) (args : Option Rec)
    (K : List String) (e : String × Source)
    (hK : e.2 = Source.payload → e.1 ∈ K)
    (st1 st2 st1' st2' : Rec × Nat)
    (hn : st1.2 = st2.2)
    (hag : ∀ k, k ∉ K → getField st1.1 k = getField st2.1 k)
    (h1 : resolveStep env c args st1 e = Except.ok st1')
    (h2 : resolveStep env c args st2 e = Except.ok st2') :
    st1'.2 = st2'.2 ∧ ∀ k, k ∉ K → getField st1'.1 k = getField st2'.1 k := by
  obtain ⟨key, src⟩ := e
  obtain ⟨mid1, hk1, hs1⟩ := resolveStep_ok env c args st1 (key, src) st1' h1
  obtain ⟨mid2, hk2, hs2⟩ := resolveStep_ok env c args st2 (key, src) st2' h2
  cases src with
  | null =>
      simp only [resolveKey] at hk1 hk2
      rw [← except_ok_inj hk1] at hs1
      rw [← except_ok_inj hk2] at hs2
      rw [hs1, hs2]
      exact ⟨hn, agree_after_assign st1.1 st2.1 K key Val.vNull hag⟩
  | sqlDefault =>
      simp only [resolveKey] at hk1 hk2
      rw [← except_ok_inj hk1] at hs1
      rw [← except_ok_inj hk2] at hs2
      rw [hs1, hs2]
      exact ⟨hn, agree_after_assign st1.1 st2.1 K key Val.vDefault hag⟩
  | uuid =>
      simp only [resolveKey] at hk1 hk2
      rw [← except_ok_inj hk1] at hs1
      rw [← except_ok_inj hk2] at hs2
      rw [hs1, hs2, hn]
      exact ⟨rfl, agree_after_assign st1.1 st2.1 K key (Val.vStr (env.uuid st2.2)) hag⟩
  | get =>
      simp only [resolveKey] at hk1 hk2
      rw [← except_ok_inj hk1] at hs1
      rw [← except_ok_inj hk2] at hs2
      rw [hs1, hs2]
      exact ⟨hn, agree_after_assign st1.1 st2.1 K key (ctxGet c key) hag⟩
  | arg =>
      cases args with
      | none => simp [resolveKey] at hk1
      | some a =>
          simp only [resolveKey] at hk1 hk2
          rw [← except_ok_inj hk1] at hs1
          rw [← except_ok_inj hk2] at hs2
          rw [hs1, hs2]
          exact ⟨hn, agree_after_assign st1.1 st2.1 K key (getField a key) hag⟩
  | payload =>
      simp only [resolveKey] at hk1 hk2
      rw [← except_ok_inj hk1] at hs1
      rw [← except_ok_inj hk2] at hs2
      rw [hs1, hs2]
      exact ⟨hn, agree_after_coerce st1.1 st2.1 K key (hK rfl) hag⟩
  | param =>
      simp only [resolveKey] at hk1 hk2
      rw [← except_ok_inj hk1] at hs1
      rw [← except_ok_inj hk2] at hs2
      rw [hs1, hs2]
      exact ⟨hn, agree_after_assign st1.1 st2.1 K key (getField c.params key) hag⟩
  | inserted_at =>
      simp only [resolveKey] at hk1 hk2
      rw [← except_ok_inj hk1] at hs1
      rw [← except_ok_inj hk2] at hs2
      rw [hs1, hs2, hn]
      exact ⟨rfl, agree_after_assign st1.1 st2.1 K key (Val.vStr (env.now st2.2)) hag⟩
  | updated_at =>
      simp only [resolveKey] at hk1 hk2
      rw [← except_ok_inj hk1] at hs1
      rw [← except_ok_inj hk2] at hs2
      rw [hs1, hs2, hn]
      exact ⟨rfl, agree_after_assign st1.1 st2.1 K key (Val.vStr (env.now st2.2)) hag⟩
  | fn f =>
      cases hf : resolveFnValue (f c) with
      | error er =>
          exfalso
          simp only [resolveKey] at hk1
          rw [except_error_bind _ _ _ hf] at hk1
          exact Except.noConfusion hk1
      | ok w =>
          simp only [resolveKey] at hk1 hk2
          rw [hf] at hk1 hk2
          simp only [Bind.bind, Except.bind] at hk1 hk2
          rw [← except_ok_inj hk1] at hs1
          rw [← except_ok_inj hk2] at hs2
          rw [hs1, hs2]
          exact ⟨hn, agree_after_assign st1.1 st2.1 K key w hag⟩

theorem foldResolve_lockstep (env : Env) (c : Ctx) (args : Option Rec)
    (K : List String) :
    ∀ (l : List (String × Source)),
    (∀ p ∈ l, p.2 = Source.payload → p.1 ∈ K) →
    ∀ (st1 st2 r1 r2 : Rec × Nat),
    st1.2 = st2.2 →
    (∀ k, k ∉ K → getField st1.1 k = getField st2.1 k) →
    List.foldlM (resolveStep env c args) st1 l = Except.ok r1 →
    List.foldlM (resolveStep env c args) st2 l = Except.ok r2 →
    r1.2 = r2.2 ∧ ∀ k, k ∉ K → getField r1.1 k = getField r2.1 k := by
  intro l
  induction l with
  | nil =>
      intro _ st1 st2 r1 r2 hn hag h1 h2
      simp [List.foldlM, pure, Except.pure] at h1 h2
      rw [← h1, ← h2]
      exact ⟨hn, hag⟩
  | cons e l ih =>
      intro hall st1 st2 r1 r2 hn hag h1 h2
      simp only [List.foldlM] at h1 h2
      obtain ⟨mid1, hstep1, hrest1⟩ := except_bind_ok _ _ _ h1
      obtain ⟨mid2, hstep2, hrest2⟩ := except_bind_ok _ _ _ h2
      obtain ⟨hn2, hag2⟩ := resolveStep_lockstep env c args K e
        (hall e (List.mem_cons_self _ _)) st1 st2 mid1 mid2 hn hag hstep1 hstep2
      exact ih (fun p hp => hall p (List.mem_cons_of_mem _ hp))
        mid1 mid2 r1 r2 hn2 hag2 hrest1 hrest2

/-! zod parse facts -/

theorem zParse_ok_mem (shape : ZShape) (v : Val) (out : Rec)
    (h : zParse shape v = Except.ok out) :
    ∀ p ∈ out, p.1 ∈ shape.map Prod.fst := by
  intro p hp
  cases v with
  | vObj fields =>
      simp only [zParse] at h
      by_cases hall :
          (shape.map (fun q => (q.1, q.2 (getField fields q.1)))).all
            (fun q => q.2.isSome)
      · rw [if_pos hall] at h
        rw [← except_ok_inj h] at hp
        obtain ⟨q, hq, hqp⟩ := List.mem_map.mp hp
        obtain ⟨s, hs, hsq⟩ := List.mem_map.mp hq
        rw [← hqp, ← hsq]
        exact List.mem_map.mpr ⟨s, hs, rfl⟩
      · rw [if_neg hall] at h
        exact Except.noConfusion h
  | vStr s => simp [zParse] at h
  | vNum n => simp [zParse] at h
  | vBool b => simp [zParse] at h
  | vNull => simp [zParse] at h
  | vUndef => simp [zParse] at h
  | vDefault => simp [zParse] at h
  | vArr elems => simp [zParse] at h
  | vPromise w => simp [zParse] at h

theorem zPick_mem (shape : ZShape) (mask : List String) :
    ∀ p ∈ zPick shape mask, p.1 ∈ mask := by
  intro p hp
  have hm := (List.mem_filter.mp hp).2
  simpa using hm

theorem mem_schemaKeys (picker : Picker) (k : String) :
    k ∈ schemaKeys picker ↔ (k, Source.payload) ∈ picker := by
  constructor
  · intro h
    obtain ⟨p, hp, hpk⟩ := List.mem_filterMap.mp h
    cases hsrc : p.2 with
    | payload =>
        rw [hsrc] at hpk
        simp at hpk
        have : p = (k, Source.payload) := by
          cases p
          simp_all
      -- the entry itself is (k, payload)
        rw [← this]
        exact hp
    | null => rw [hsrc] at hpk; simp at hpk
    | sqlDefault => rw [hsrc] at hpk; simp at hpk
    | uuid => rw [hsrc] at hpk; simp at hpk
    | get => rw [hsrc] at hpk; simp at hpk
    | arg => rw [hsrc] at hpk; simp at hpk
    | param => rw [hsrc] at hpk; simp at hpk
    | inserted_at => rw [hsrc] at hpk; simp at hpk
    | updated_at => rw [hsrc] at hpk; simp at hpk
    | fn f => rw [hsrc] at hpk; simp at hpk
  · intro h
    exact List.mem_filterMap.mpr ⟨(k, Source.payload), h, rfl⟩

theorem schemaKeys_sub_keys (picker : Picker) (k : String)
    (h : k ∈ schemaKeys picker) : k ∈ picker.map Prod.fst := by
  obtain ⟨p, hp, hpk⟩ := List.mem_filterMap.mp h
  refine List.mem_map.mpr ⟨p, hp, ?_⟩
  cases hsrc : p.2 <;> rw [hsrc] at hpk <;> simp at hpk <;> exact hpk

theorem attributesPicker_error (models : Models) (model : String) (picker : Picker)
    (env : Env) (c : Ctx) (payload : Val) (args : Option Rec) (er : Err)
    (h : attributesPicker models model picker env c payload args = Except.error er) :
    isCrudError er = false := by
  unfold attributesPicker at h
  rcases except_bind_error _ _ _ h with hh | ⟨attrs, _, hh⟩
  · obtain ⟨issues, hi⟩ := zParse_error _ _ _ hh
    rw [hi]
    rfl
  · rcases except_bind_error _ _ _ hh with hh2 | ⟨st, _, hh2⟩
    · exact foldResolve_error env c args _ _ er hh2
    · exact Except.noConfusion hh2

theorem attributesPicker_ok (models : Models) (model : String) (picker : Picker)
    (env : Env) (c : Ctx) (payload : Val) (args : Option Rec) (attrs : Rec)
    (h : attributesPicker models model picker env c payload args = Except.ok attrs) :
    ∃ init st,
      zParse (zPick (getShape models model) (schemaKeys picker)) payload
        = Except.ok init ∧
      List.foldlM (resolveStep env c args) (init, 0) picker = Except.ok st ∧
      attrs = st.1 := by
  unfold attributesPicker at h
  obtain ⟨init, hz, h2⟩ := except_bind_ok _ _ _ h
  obtain ⟨st, hf, h3⟩ := except_bind_ok _ _ _ h2
  exact ⟨init, st, hz, hf, (except_ok_inj h3).symm⟩

theorem zParse_zPick_getField_vUndef (shape : ZShape) (mask : List String)
    (v : Val) (out : Rec) (k : String)
    (h : zParse (zPick shape mask) v = Except.ok out) (hk : k ∉ mask) :
    getField out k = Val.vUndef := by
  refine getField_eq_vUndef out k ?_
  intro p hp hpk
  have hm := zParse_ok_mem _ _ _ h p hp
  obtain ⟨q, hq, hqk⟩ := List.mem_map.mp hm
  have hqm : q.1 ∈ mask := zPick_mem shape mask q hq
  rw [hqk, hpk] at hqm
  exact hk hqm

/-! Concrete fixtures (the models of the example app shipped with the repository) -/

def usersShape : ZShape := [("user_id", zString), ("name", zNullable zString)]

def demoModels : Models := [("users", usersShape)]

def demoEnv : Env :=
  { uuid := fun n => "uuid-" ++ toString n,
    now := fun _ => "2024-01-01T00:00:00.000Z" }

/-- The example create spec: `{user_id: "uuid", name: "payload"}`. -/
def userPicker : Picker := [("user_id", Source.uuid), ("name", Source.payload)]

def bodyAnn : Val := Val.vObj [("name", Val.vStr "Ann"), ("extra", Val.vStr "ignored")]

def bodyBob : Val := Val.vObj [("name", Val.vStr "Bob")]

def demoCtx : Ctx := { store := [], params := [("user_id", Val.vStr "u1")], body := bodyAnn }

def flagsShape : ZShape := [("id", zString), ("active", zBoolean)]

def flagModels : Models := [("flags", flagsShape)]

def flagPicker : Picker := [("id", Source.param), ("active", Source.payload)]

def flagCtx : Ctx :=
  { store := [], params := [("id", Val.vStr "f1")],
    body := Val.vObj [("active", Val.vBool true)] }

/-- A store oracle with no matching rows: selects find nothing, updates
match zero rows, deletes affect zero rows; inserts echo the record. -/
def demoDB : DB :=
  { selectAll := fun _ => [], takeFirst := fun _ => none,
    insert := fun _ r _ => some r, updateRet := fun _ _ => none,
    deleteCount := fun _ => 0 }

/-- A request whose body fails validation of the users schema. -/
def badCtx : Ctx := { store := [], params := [], body := Val.vObj [("name", Val.vNum 5)] }

/-- A store oracle that finds a row everywhere but still deletes nothing:
same delete behaviour as `demoDB`, different select behaviour. -/
def demoDB2 : DB :=
  { selectAll := fun _ => [[("user_id", Val.vStr "u1")]],
    takeFirst := fun _ => some [("user_id", Val.vStr "u1")],
    insert := fun _ r _ => some r, updateRet := fun _ r => some r,
    deleteCount := fun _ => 0 }

/-- A store oracle whose selects find nothing while deletes report one
affected row. -/
def demoDB3 : DB :=
  { selectAll := fun _ => [], takeFirst := fun _ => none,
    insert := fun _ r _ => some r, updateRet := fun _ _ => none,
    deleteCount := fun _ => 1 }

/-- A request whose adapter produces the body asynchronously: the raw body is
an unresolved promise of a valid payload. -/
def asyncCtx : Ctx :=
  { store := [], params := [],
    body := Val.vPromise (Val.vObj [("name", Val.vStr "Ann")]) }

/-- A request carrying a record already cached under the singular key. -/
def cachedCtx : Ctx :=
  { store := [("user", Val.vObj [("user_id", Val.vStr "u1")])],
    params := [], body := Val.vNull }

/-- A request carrying a record cached under the empty-string key. -/
def emptyAsCtx : Ctx :=
  { store := [("", Val.vObj [("user_id", Val.vStr "u1")])],
    params := [], body := Val.vNull }

/-- The nested-resource request from the example in the spec:
route parameters `{user_id: "u1", thing_id: "t1"}`. -/
def scopedCtx : Ctx :=
  { store := [],
    params := [("user_id", Val.vStr "u1"), ("thing_id", Val.vStr "t1")],
    body := Val.vNull }

/-- Modelled from the spec: the resolved value of a possibly-asynchronous raw
body (what an awaited `getRequestBody` result would be). -/
def awaitVal : Val → Val
  | Val.vPromise v => v
  | v => v

/-- Modelled from the spec: the per-record response shaping pipeline — field
omission, then field picking, then the render transform. -/
def shapeRow (options : ResponseOptions) (row : Rec) : Rec :=
  let afterOmit := match options.«omit» with
    | some props => «omit» row props
    | none => row
  let afterPick := match options.pick with
    | some props => pick afterOmit props
    | none => afterOmit
  match options.render with
  | some r => r afterPick
  | none => afterPick

/-! Claims -/

/-- Claim C1: for every attribute specification and raw payload, a field not
declared with the `payload` source is never copied from the raw payload into
the resolved record (its resolved value is the same whatever the payload
argument is), and the resolved record contains only fields named in the
attribute specification. -/
theorem mass_assignment_protection
    (models : Models) (model : String) (picker : Picker) (env : Env) (c : Ctx)
    (p1 p2 : Val) (args : Option Rec) (a1 a2 : Rec)
    (h1 : attributesPicker models model picker env c p1 args = Except.ok a1)
    (h2 : attributesPicker models model picker env c p2 args = Except.ok a2) :
    (∀ p : String × Val, p ∈ a1 → p.1 ∈ picker.map Prod.fst) ∧
    (∀ k, k ∉ schemaKeys picker → getField a1 k = getField a2 k) := by
  obtain ⟨init1, st1, hz1, hf1, ha1⟩ :=
    attributesPicker_ok models model picker env c p1 args a1 h1
  obtain ⟨init2, st2, hz2, hf2, ha2⟩ :=
    attributesPicker_ok models model picker env c p2 args a2 h2
  constructor
  · intro p hp
    rw [ha1] at hp
    rcases foldResolve_mem env c args picker (init1, 0) st1 hf1 p hp with hh | hh
    · exact hh
    · have hm := zParse_ok_mem _ _ _ hz1 p hh
      obtain ⟨q, hq, hqk⟩ := List.mem_map.mp hm
      have hmask := zPick_mem _ _ q hq
      rw [hqk] at hmask
      exact schemaKeys_sub_keys picker p.1 hmask
  · intro k hk
    have hks : ∀ q ∈ picker, q.2 = Source.payload → q.1 ∈ schemaKeys picker := by
      intro q hq hqp
      obtain ⟨qk, qs⟩ := q
      simp only at hqp
      rw [hqp] at hq
      exact (mem_schemaKeys picker qk).mpr hq
    have hag0 : ∀ k2, k2 ∉ schemaKeys picker →
        getField ((init1, 0) : Rec × Nat).1 k2 = getField ((init2, 0) : Rec × Nat).1 k2 := by
      intro k2 hk2
      rw [zParse_zPick_getField_vUndef _ _ _ _ _ hz1 hk2,
        zParse_zPick_getField_vUndef _ _ _ _ _ hz2 hk2]
    obtain ⟨_, hag⟩ := foldResolve_lockstep env c args (schemaKeys picker) picker hks
      (init1, 0) (init2, 0) st1 st2 rfl hag0 hf1 hf2
    rw [ha1, ha2]
    exact hag k hk

theorem mass_assignment_protection_witness :
    getField [("name", Val.vStr "Ann"), ("user_id", Val.vStr "uuid-0")] "user_id"
      = getField [("name", Val.vStr "Bob"), ("user_id", Val.vStr "uuid-0")] "user_id" :=
  (mass_assignment_protection demoModels "users" userPicker demoEnv demoCtx
    bodyAnn bodyBob none
    [("name", Val.vStr "Ann"), ("user_id", Val.vStr "uuid-0")]
    [("name", Val.vStr "Bob"), ("user_id", Val.vStr "uuid-0")]
    rfl rfl).2 "user_id" (by decide)

/-- Claim C8: boolean resolved values are coerced to exactly the textual values
"1" (true) and "0" (false), and no field of a successfully resolved record is
ever a native boolean, whatever its source. -/
theorem boolean_coercion
    (models : Models) (model : String) (picker : Picker) (env : Env) (c : Ctx)
    (payload : Val) (args : Option Rec) (attrs : Rec)
    (h : attributesPicker models model picker env c payload args = Except.ok attrs) :
    (∀ b : Bool, coerceBool (Val.vBool b) = Val.vStr (if b then "1" else "0")) ∧
    (∀ k b, getField attrs k ≠ Val.vBool b) := by
  obtain ⟨init, st, hz, hf, ha⟩ :=
    attributesPicker_ok models model picker env c payload args attrs h
  refine ⟨fun b => by cases b <;> rfl, ?_⟩
  intro k b
  rw [ha]
  refine foldResolve_not_vBool env c args picker (init, 0) st hf ?_ k b
  intro k2 hk2 b2
  have hk2s : k2 ∉ schemaKeys picker :=
    fun hh => hk2 (schemaKeys_sub_keys picker k2 hh)
  rw [zParse_zPick_getField_vUndef _ _ _ _ _ hz hk2s]
  exact fun hh => Val.noConfusion hh

theorem boolean_coercion_witness :
    getField [("active", Val.vStr "1"), ("id", Val.vStr "f1")] "active"
      ≠ Val.vBool true :=
  (boolean_coercion flagModels "flags" flagPicker demoEnv flagCtx
    flagCtx.body none [("active", Val.vStr "1"), ("id", Val.vStr "f1")]
    rfl).2 "active" true

theorem attributesPicker_arg_none (models : Models) (model : String)
    (picker : Picker) (env : Env) (c : Ctx) (payload : Val) (k : String)
    (hk : (k, Source.arg) ∈ picker) :
    ∀ r, attributesPicker models model picker env c payload none ≠ Except.ok r := by
  intro r h
  obtain ⟨init, st, _, hf, _⟩ :=
    attributesPicker_ok models model picker env c payload none r h
  exact foldResolve_args_none env c picker (init, 0) st k hk hf

/-- Claim C10: when the attribute specification contains an `arg`-sourced field and
the generated create or update action is invoked without an extra-arguments
bag, the action fails (indexing the absent bag throws); there is no silent
null/undefined fallback. -/
theorem arg_source_requires_args_bag
    (models : Models) (db : DB) (env : Env) (model : String)
    (co : CreateOptions) (uo : UpdateOptions) (c : Ctx) (k1 k2 : String)
    (hc : (k1, Source.arg) ∈ co.attributes)
    (hu : (k2, Source.arg) ∈ uo.attributes) :
    exceptIsOk (create models db env model co c none) = false ∧
    exceptIsOk (update models db env model uo c none) = false := by
  constructor
  · cases hap : attributesPicker models model co.attributes env c c.body none with
    | error e =>
        unfold create
        rw [except_error_bind _ _ _ hap]
        rfl
    | ok attrs =>
        exact absurd hap (attributesPicker_arg_none models model co.attributes
          env c c.body k1 hc attrs)
  · cases hap : attributesPicker models model uo.attributes env c c.body none with
    | error e =>
        unfold update
        rw [except_error_bind _ _ _ hap]
        rfl
    | ok attrs =>
        exact absurd hap (attributesPicker_arg_none models model uo.attributes
          env c c.body k2 hu attrs)

theorem arg_source_requires_args_bag_witness :
    exceptIsOk (create demoModels demoDB demoEnv "users"
      { attributes := [("owner", Source.arg)] } demoCtx none) = false ∧
    exceptIsOk (update demoModels demoDB demoEnv "users"
      { attributes := [("owner", Source.arg)] } demoCtx none) = false :=
  arg_source_requires_args_bag demoModels demoDB demoEnv "users"
    { attributes := [("owner", Source.arg)] }
    { attributes := [("owner", Source.arg)] } demoCtx "owner" "owner"
    (by simp) (by simp)

/-- Claim C2 counterexample: at a concrete create whose `payload`-sourced field
fails schema validation, the error raised is the error of the validation library,
which is not a first-class `CrudError` of this layer (`crud_error.ts` defines
only unauthorized/forbidden/not_found; there is no validation kind). -/
theorem validation_error_not_crud_counterexample :
    attributesPicker demoModels "users" userPicker demoEnv demoCtx
      (Val.vObj [("name", Val.vNum 5)]) none = Except.error (Err.zod ["name"]) ∧
    isCrudError (Err.zod ["name"]) = false :=
  ⟨rfl, rfl⟩

/-- Claim C2 (amended): when a `payload`-sourced field fails schema validation,
attribute resolution fails with the error of the validation library (which names
the failing fields but is not one of the CrudError kinds of this layer), and
create and update surface exactly that error. -/
theorem validation_failure_surfaced
    (models : Models) (db : DB) (env : Env) (model : String) (picker : Picker)
    (hasConf : Bool) (wo : Option WhereOpts) (c : Ctx) (args : Option Rec) (e : Err)
    (hz : zParse (zPick (getShape models model) (schemaKeys picker)) c.body
      = Except.error e) :
    (∃ issues, e = Err.zod issues) ∧
    isCrudError e = false ∧
    attributesPicker models model picker env c c.body args = Except.error e ∧
    create models db env model { attributes := picker, hasOnConflict := hasConf }
      c args = Except.error e ∧
    update models db env model { whereOpt := wo, attributes := picker }
      c args = Except.error e := by
  have hap : attributesPicker models model picker env c c.body args
      = Except.error e := by
    unfold attributesPicker
    exact except_error_bind _ _ _ hz
  obtain ⟨issues, hi⟩ := zParse_error _ _ _ hz
  refine ⟨⟨issues, hi⟩, by rw [hi]; rfl, hap, ?_, ?_⟩
  · unfold create
    exact except_error_bind _ _ _ hap
  · unfold update
    exact except_error_bind _ _ _ hap

theorem validation_failure_surfaced_witness :
    create demoModels demoDB demoEnv "users"
      { attributes := userPicker, hasOnConflict := false } badCtx none
      = Except.error (Err.zod ["name"]) ∧
    update demoModels demoDB demoEnv "users"
      { whereOpt := none, attributes := userPicker } badCtx none
      = Except.error (Err.zod ["name"]) :=
  ⟨(validation_failure_surfaced demoModels demoDB demoEnv "users" userPicker
      false none badCtx none (Err.zod ["name"]) rfl).2.2.2.1,
    (validation_failure_surfaced demoModels demoDB demoEnv "users" userPicker
      false none badCtx none (Err.zod ["name"]) rfl).2.2.2.2⟩

/-- Claim C3: update raises `NotFoundError` when its scoped update matches zero
rows, delete raises `NotFoundError` when zero rows are affected, and create
never raises `NotFoundError`. -/
theorem not_found_behaviour
    (models : Models) (db : DB) (env : Env) (model : String)
    (uo : UpdateOptions) (dopts : DestroyOptions) (co : CreateOptions)
    (c : Ctx) (args : Option Rec) (attrs : Rec) (e : Err) :
    (attributesPicker models model uo.attributes env c c.body args = Except.ok attrs →
      db.updateRet (updateQuery model uo c) attrs = none →
      update models db env model uo c args = Except.error notFoundErr) ∧
    (db.deleteCount (destroyQuery model dopts c) = 0 →
      destroy db model dopts c = Except.error notFoundErr) ∧
    (create models db env model co c args = Except.error e → e ≠ notFoundErr) := by
  refine ⟨?_, ?_, ?_⟩
  · intro hap hrow
    unfold update
    rw [hap]
    simp only [Bind.bind, Except.bind, hrow]
  · intro hzero
    unfold destroy
    cases hrec : ctxGet c (singularize model (destroyLoadOptions dopts)) with
    | vUndef =>
        cases hload : db.takeFirst (loadQuery model (destroyLoadOptions dopts) c) with
        | none =>
            simp only [load, hload]
            rfl
        | some row =>
            simp only [load, hload, Except.map, Bind.bind, Except.bind, hzero]
            rfl
    | vStr s => simp only [Bind.bind, Except.bind, hzero]; rfl
    | vNum n => simp only [Bind.bind, Except.bind, hzero]; rfl
    | vBool b => simp only [Bind.bind, Except.bind, hzero]; rfl
    | vNull => simp only [Bind.bind, Except.bind, hzero]; rfl
    | vDefault => simp only [Bind.bind, Except.bind, hzero]; rfl
    | vObj fields => simp only [Bind.bind, Except.bind, hzero]; rfl
    | vArr elems => simp only [Bind.bind, Except.bind, hzero]; rfl
    | vPromise w => simp only [Bind.bind, Except.bind, hzero]; rfl
  · intro hcr
    cases hap : attributesPicker models model co.attributes env c c.body args with
    | error e2 =>
        unfold create at hcr
        rw [except_error_bind _ _ _ hap] at hcr
        have he : e = e2 := (except_error_inj hcr).symm
        intro hnf
        have := attributesPicker_error models model co.attributes env c c.body args e2 hap
        rw [← he, hnf] at this
        exact Bool.noConfusion this
    | ok attrs2 =>
        exfalso
        unfold create at hcr
        rw [hap] at hcr
        simp only [Bind.bind, Except.bind] at hcr
        exact Except.noConfusion hcr

theorem not_found_behaviour_witness :
    update demoModels demoDB demoEnv "users" { attributes := userPicker }
      demoCtx none = Except.error notFoundErr ∧
    destroy demoDB "users" {} demoCtx = Except.error notFoundErr ∧
    Err.zod ["name"] ≠ notFoundErr :=
  ⟨(not_found_behaviour demoModels demoDB demoEnv "users"
      { attributes := userPicker } {} { attributes := userPicker } demoCtx none
      [("name", Val.vStr "Ann"), ("user_id", Val.vStr "uuid-0")]
      (Err.zod ["name"])).1 rfl rfl,
    (not_found_behaviour demoModels demoDB demoEnv "users"
      { attributes := userPicker } {} { attributes := userPicker } badCtx none
      [] (Err.zod ["name"])).2.1 rfl,
    (not_found_behaviour demoModels demoDB demoEnv "users"
      { attributes := userPicker } {} { attributes := userPicker } badCtx none
      [] (Err.zod ["name"])).2.2 rfl⟩

/-- Claim C4 (code bug): the adapter contract allows `getRequestBody` to produce
the payload asynchronously, but create validates the unawaited value: with a
promise body resolving to a valid payload, validation receives the promise
and fails, although the resolved value of the same body validates fine. -/
theorem async_body_validated_unawaited :
    asyncCtx.body = Val.vPromise (Val.vObj [("name", Val.vStr "Ann")]) ∧
    create demoModels demoDB demoEnv "users" { attributes := userPicker }
      asyncCtx none
      = Except.error (Err.zod ["Expected object, received promise"]) ∧
    zParse (zPick (getShape demoModels "users") (schemaKeys userPicker))
      (awaitVal asyncCtx.body) = Except.ok [("name", Val.vStr "Ann")] :=
  ⟨rfl, rfl, rfl⟩

/-- Claim C5 counterexample: with the explicit option `as` set to the empty string
and a record cached under that exact key, fetch does not return the cached
record — JS truthiness makes `singularize` ignore an empty `as`, so the
lookup uses the stripped model name and falls through to a load that 404s. -/
theorem cached_fetch_counterexample :
    ctxGet emptyAsCtx "" = Val.vObj [("user_id", Val.vStr "u1")] ∧
    singularize "users" { as := some "" } = "user" ∧
    «show» demoDB "users" { as := some "" } emptyAsCtx
      = Except.error notFoundErr :=
  ⟨rfl, rfl, rfl⟩

/-- Claim C5 (amended): fetch returns the contextually cached record under the
singular key with no store access, and delete skips its preliminary load when
such a record is cached; both fall back to a scoped single-record load
otherwise; the singular key is the explicit `as` option when given and
nonempty, else the model name with its trailing character stripped (an empty
`as` is ignored). -/
theorem cached_record_reuse
    (model : String) (opts : LoadOptions) (dopts : DestroyOptions) (c : Ctx)
    (v : Val) (a : String) :
    (ctxGet c (singularize model opts) = v → v ≠ Val.vUndef →
      ∀ db : DB, «show» db model opts c = Except.ok v) ∧
    (ctxGet c (singularize model opts) = Val.vUndef →
      ∀ db : DB, «show» db model opts c = (load db model opts c).map Val.vObj) ∧
    (ctxGet c (singularize model (destroyLoadOptions dopts)) ≠ Val.vUndef →
      ∀ db1 db2 : DB, db1.deleteCount = db2.deleteCount →
        destroy db1 model dopts c = destroy db2 model dopts c) ∧
    (ctxGet c (singularize model (destroyLoadOptions dopts)) = Val.vUndef →
      ∀ db : DB, destroy db model dopts c
        = (load db model (destroyLoadOptions dopts) c).bind (fun _ =>
            if db.deleteCount (destroyQuery model dopts c) = 0 then
              Except.error notFoundErr
            else
              Except.ok [])) ∧
    (opts.as = some a → a ≠ "" → singularize model opts = a) ∧
    ((opts.as = none ∨ opts.as = some "") →
      singularize model opts = model.dropRight 1) := by
  refine ⟨?_, ?_, ?_, ?_, ?_, ?_⟩
  · intro hget hne db
    unfold «show»
    rw [hget]
    cases v with
    | vUndef => exact absurd rfl hne
    | vStr s => rfl
    | vNum n => rfl
    | vBool b => rfl
    | vNull => rfl
    | vDefault => rfl
    | vObj fields => rfl
    | vArr elems => rfl
    | vPromise w => rfl
  · intro hget db
    unfold «show»
    rw [hget]
  · intro hne db1 db2 hdel
    unfold destroy
    cases hrec : ctxGet c (singularize model (destroyLoadOptions dopts)) with
    | vUndef => exact absurd hrec hne
    | vStr s => simp only [Bind.bind, Except.bind, hdel]
    | vNum n => simp only [Bind.bind, Except.bind, hdel]
    | vBool b => simp only [Bind.bind, Except.bind, hdel]
    | vNull => simp only [Bind.bind, Except.bind, hdel]
    | vDefault => simp only [Bind.bind, Except.bind, hdel]
    | vObj fields => simp only [Bind.bind, Except.bind, hdel]
    | vArr elems => simp only [Bind.bind, Except.bind, hdel]
    | vPromise w => simp only [Bind.bind, Except.bind, hdel]
  · intro hget db
    unfold destroy
    rw [hget]
    cases hload : db.takeFirst (loadQuery model (destroyLoadOptions dopts) c) with
    | none => simp [load, hload, Except.map, Bind.bind, Except.bind]
    | some row => simp [load, hload, Except.map, Bind.bind, Except.bind]
  · intro ha hne
    unfold singularize
    rw [ha]
    simp [String.isEmpty_iff, hne]
  · intro ha
    unfold singularize
    rcases ha with ha | ha
    · rw [ha]
    · rw [ha]
      simp [String.isEmpty_iff]

theorem cached_record_reuse_witness :
    «show» demoDB "users" {} cachedCtx
      = Except.ok (Val.vObj [("user_id", Val.vStr "u1")]) ∧
    «show» demoDB "users" {} demoCtx
      = (load demoDB "users" {} demoCtx).map Val.vObj ∧
    destroy demoDB "users" {} cachedCtx = destroy demoDB2 "users" {} cachedCtx ∧
    destroy demoDB3 "users" {} demoCtx = Except.error notFoundErr ∧
    singularize "users" { as := some "person" } = "person" ∧
    singularize "users" {} = "users".dropRight 1 :=
  ⟨(cached_record_reuse "users" {} {} cachedCtx
      (Val.vObj [("user_id", Val.vStr "u1")]) "person").1 rfl (by simp) demoDB,
    (cached_record_reuse "users" {} {} demoCtx
      (Val.vObj [("user_id", Val.vStr "u1")]) "person").2.1 rfl demoDB,
    (cached_record_reuse "users" {} {} cachedCtx
      (Val.vObj [("user_id", Val.vStr "u1")]) "person").2.2.1
      (by rw [show ctxGet cachedCtx (singularize "users" (destroyLoadOptions {}))
          = Val.vObj [("user_id", Val.vStr "u1")] from rfl]; simp)
      demoDB demoDB2 rfl,
    (cached_record_reuse "users" {} {} demoCtx
      (Val.vObj [("user_id", Val.vStr "u1")]) "person").2.2.2.1 rfl demoDB3,
    (cached_record_reuse "users" { as := some "person" } {} cachedCtx
      (Val.vObj [("user_id", Val.vStr "u1")]) "person").2.2.2.2.1 rfl (by simp),
    (cached_record_reuse "users" {} {} cachedCtx
      (Val.vObj [("user_id", Val.vStr "u1")]) "person").2.2.2.2.2 (Or.inl rfl)⟩

theorem foldl_addFilter {α : Type} (f : α → Filter) :
    ∀ (l : List α) (q : Query),
    List.foldl (fun qq p => addFilter qq (f p)) q l
      = { table := q.table, filters := q.filters ++ l.map f } := by
  intro l
  induction l with
  | nil => intro q; simp
  | cons x l ih =>
      intro q
      rw [List.foldl_cons, ih]
      simp [addFilter]

/-- Claim C6: when `scopes` is set, exactly the route parameters named in it are
kept as scopes (exact key match) and all others are excluded; when unset,
every route parameter is kept; the kept scopes are applied as equality
filters against the identically-named fields. -/
theorem scope_restriction
    (c : Ctx) (opts : LoadOptions) (names : List String) (k : String) (v : Val)
    (model : String) :
    (opts.scopes = some names →
      ((k, v) ∈ getScopes c opts ↔ (k, v) ∈ c.params ∧ k ∈ names)) ∧
    (opts.scopes = none → getScopes c opts = c.params) ∧
    (opts.whereOpt = none → opts.queryHook = none →
      indexQuery model opts c
        = { table := model,
            filters := (getScopes c opts).map (fun p => ⟨p.1, "=", p.2⟩) }) := by
  refine ⟨?_, ?_, ?_⟩
  · intro hs
    unfold getScopes
    rw [hs]
    simp [List.mem_filter]
  · intro hs
    unfold getScopes
    rw [hs]
  · intro hw hq
    simp only [indexQuery, hw, hq]
    rw [foldl_addFilter
      (fun p : String × Val => ({ field := p.1, op := "=", value := p.2 } : Filter))]
    simp

theorem scope_restriction_witness :
    (("thing_id", Val.vStr "t1")
      ∉ getScopes scopedCtx { scopes := some ["user_id"] }) ∧
    getScopes scopedCtx {} = scopedCtx.params ∧
    indexQuery "things" { scopes := some ["user_id"] } scopedCtx
      = { table := "things",
          filters := [{ field := "user_id", op := "=", value := Val.vStr "u1" }] } :=
  ⟨fun hmem =>
      (by decide : "thing_id" ∉ ["user_id"])
        (((scope_restriction scopedCtx { scopes := some ["user_id"] } ["user_id"]
          "thing_id" (Val.vStr "t1") "things").1 rfl).mp hmem).2,
    (scope_restriction scopedCtx {} ["user_id"] "thing_id" (Val.vStr "t1")
      "things").2.1 rfl,
    (scope_restriction scopedCtx { scopes := some ["user_id"] } ["user_id"]
      "thing_id" (Val.vStr "t1") "things").2.2 rfl rfl⟩

/-- Claim C7: the list query composes filters in a fixed order — route-parameter
scope filters first, then each `where` triple in list order (a function-valued
`where` being invoked with the request context to obtain the triples), and the
`query` hook is applied last to the query-so-far, its result becoming the
final query. -/
theorem filter_composition_order (model : String) (opts : LoadOptions) (c : Ctx) :
    indexQuery model opts c =
      (match opts.queryHook with
        | some h => h c
        | none => id)
        { table := model,
          filters := (getScopes c opts).map
              (fun p : String × Val => Filter.mk p.1 "=" p.2)
            ++ (match opts.whereOpt with
                | some (WhereOpts.list l) =>
                    l.map (fun t : String × String × Val => Filter.mk t.1 t.2.1 t.2.2)
                | some (WhereOpts.fn f) =>
                    (f c).map (fun t : String × String × Val => Filter.mk t.1 t.2.1 t.2.2)
                | none => []) } := by
  cases hw : opts.whereOpt with
  | none =>
      cases hq : opts.queryHook with
      | none =>
          simp only [indexQuery, hw, hq]
          rw [foldl_addFilter
            (fun p : String × Val => ({ field := p.1, op := "=", value := p.2 } : Filter))]
          simp
      | some h =>
          simp only [indexQuery, hw, hq]
          rw [foldl_addFilter
            (fun p : String × Val => ({ field := p.1, op := "=", value := p.2 } : Filter))]
          simp
  | some w =>
      cases w with
      | list l =>
          cases hq : opts.queryHook with
          | none =>
              simp only [indexQuery, hw, hq, applyWhere]
              rw [foldl_addFilter
                (fun p : String × Val => ({ field := p.1, op := "=", value := p.2 } : Filter)),
                foldl_addFilter
                (fun t : String × String × Val =>
                  ({ field := t.1, op := t.2.1, value := t.2.2 } : Filter))]
              simp
          | some h =>
              simp only [indexQuery, hw, hq, applyWhere]
              rw [foldl_addFilter
                (fun p : String × Val => ({ field := p.1, op := "=", value := p.2 } : Filter)),
                foldl_addFilter
                (fun t : String × String × Val =>
                  ({ field := t.1, op := t.2.1, value := t.2.2 } : Filter))]
              simp
      | fn f =>
          cases hq : opts.queryHook with
          | none =>
              simp only [indexQuery, hw, hq, applyWhere]
              rw [foldl_addFilter
                (fun p : String × Val => ({ field := p.1, op := "=", value := p.2 } : Filter)),
                foldl_addFilter
                (fun t : String × String × Val =>
                  ({ field := t.1, op := t.2.1, value := t.2.2 } : Filter))]
              simp
          | some h =>
              simp only [indexQuery, hw, hq, applyWhere]
              rw [foldl_addFilter
                (fun p : String × Val => ({ field := p.1, op := "=", value := p.2 } : Filter)),
                foldl_addFilter
                (fun t : String × String × Val =>
                  ({ field := t.1, op := t.2.1, value := t.2.2 } : Filter))]
              simp

/-- Claim C9: collection shaping applies the per-record pipeline (omit, then pick,
then render) to each element, returning the shaped elements in the original
order inside the `{ data, metadata }` envelope; in particular omitting "name"
from `[{id:1,name:"a"},{id:2,name:"b"}]` yields `[{id:1},{id:2}]`. -/
theorem collection_shaping (dataFn : Ctx → Except Err Collection)
    (options : ResponseOptions) (c : Ctx) (coll : Collection)
    (hd : dataFn c = Except.ok coll) :
    collectionResponse dataFn options c = Except.ok
      { body := Val.vObj
          [("data", Val.vArr ((coll.data.map (shapeRow options)).map Val.vObj)),
            ("metadata", coll.metadata)],
        statusCode := options.statusCode.getD 200 } ∧
    collectionResponse (fun _ => Except.ok
        { data := [[("id", Val.vNum 1), ("name", Val.vStr "a")],
            [("id", Val.vNum 2), ("name", Val.vStr "b")]],
          metadata := Val.vObj [("total_count", Val.vNum 0)] })
        { «omit» := some ["name"] } c
      = Except.ok
        { body := Val.vObj
            [("data", Val.vArr [Val.vObj [("id", Val.vNum 1)],
                Val.vObj [("id", Val.vNum 2)]]),
              ("metadata", Val.vObj [("total_count", Val.vNum 0)])],
          statusCode := 200 } := by
  constructor
  · unfold collectionResponse
    rw [hd]
    rfl
  · rfl

theorem collection_shaping_witness :
    collectionResponse (fun _ => Except.ok (index demoDB "users" {} demoCtx))
      {} demoCtx = Except.ok
      { body := Val.vObj [("data", Val.vArr []),
          ("metadata", Val.vObj [("total_count", Val.vNum 0)])],
        statusCode := 200 } :=
  (collection_shaping (fun _ => Except.ok (index demoDB "users" {} demoCtx))
    {} demoCtx (index demoDB "users" {} demoCtx) rfl).1

end Crud
